import Mathlib

set_option maxRecDepth 8192

/-
Verification development for the kante-kusta CLI client.

Shallow embedding conventions:
* Rust `String`/`&str` values handled by the scraper are modelled as `List Char`
  (the markers involved are ASCII, so byte-offset search in UTF-8 coincides
  with character-offset search); the one function that indexes raw bytes
  (`format::truncate`) is modelled over `List Nat` (UTF-8 bytes).
* JSON documents are modelled by the inductive `Json`; serde_json's `Number`
  distinguishes integrally-written numbers from floats, so `Json` has separate
  `int`/`float` constructors.  Floating-point values are modelled as exact
  rationals (no operation in the verified code does float arithmetic; values
  are only decoded, defaulted and passed through).
* serde-derive struct deserialization is modelled field by field:
  a required field is a lookup that must succeed and decode; a
  `#[serde(default)]` field substitutes the Rust `Default` value when the key
  is absent, but a key that is present must decode with the field's type
  (in particular an explicit `null` only decodes for `Option` fields).
  Unknown keys are ignored (no `deny_unknown_fields`).  Duplicate keys
  (rejected by serde) are out of modelled scope: lookup takes the first.
* Fallible Rust paths (`anyhow::Result`) become `Except`/`Option`; a Rust
  panic is modelled as `Option.none`.
-/

namespace KK

/-- JSON values as produced by serde_json's parser. -/
inductive Json where
  | null : Json
  | bool (b : Bool) : Json
  | int (n : Int) : Json
  | float (q : ℚ) : Json
  | str (s : String) : Json
  | arr (xs : List Json) : Json
  | obj (kvs : List (String × Json)) : Json

/-- Lookup of a field in a JSON object, first occurrence. -/
def getField : List (String × Json) → String → Option Json
  | [], _ => none
  | (k, v) :: rest, key => if k = key then some v else getField rest key

/-- Required struct field: the key must be present and its value must decode. -/
def reqField (kvs : List (String × Json)) (key : String) (d : Json → Option α) : Option α :=
  (getField kvs key).bind d

/-- Field carrying serde(default): absent key yields the default, but a
present key must decode with the field's type. -/
def optField (kvs : List (String × Json)) (key : String) (d : Json → Option α) (dflt : α) :
    Option α :=
  match getField kvs key with
  | none => some dflt
  | some v => d v

/-- Decoder for u64: serde_json only accepts an integrally-written number in range. -/
def decodeU64 : Json → Option Nat
  | .int n => if 0 ≤ n ∧ n < 18446744073709551616 then some n.toNat else none
  | _ => none

/-- Decoder for u32. -/
def decodeU32 : Json → Option Nat
  | .int n => if 0 ≤ n ∧ n < 4294967296 then some n.toNat else none
  | _ => none

/-- Decoder for u8. -/
def decodeU8 : Json → Option Nat
  | .int n => if 0 ≤ n ∧ n < 256 then some n.toNat else none
  | _ => none

/-- Decoder for f64 (also f32): serde accepts both int- and float-written numbers. -/
def decodeF64 : Json → Option ℚ
  | .int n => some (n : ℚ)
  | .float q => some q
  | _ => none

/-- Decoder for Bool. -/
def decodeBool : Json → Option Bool
  | .bool b => some b
  | _ => none

/-- Decoder for String. -/
def decodeString : Json → Option String
  | .str s => some s
  | _ => none

/-- Decoder for `Option T`: JSON null is None, anything else must decode as T. -/
def decodeOptional (d : Json → Option α) : Json → Option (Option α)
  | .null => some none
  | v => (d v).map some

/-- Decoder for `Vec T`. -/
def decodeList (d : Json → Option α) : Json → Option (List α)
  | .arr xs => xs.mapM d
  | _ => none

/-- Badges struct from models.rs (all fields serde(default)). -/
structure Badges where
  is_best_seller : Bool
  is_best_price : Bool
  is_customers_favorite : Bool
  discount_percentage : Option Nat
deriving DecidableEq

/-- Rust `Badges::default()`. -/
def defaultBadges : Badges := ⟨false, false, false, none⟩

/-- Rating struct from models.rs. -/
structure Rating where
  rating_count : ℚ
  reviews_count : Nat
deriving DecidableEq

/-- Tags struct from models.rs (all fields serde(default)). -/
structure Tags where
  is_marketplace : Bool
  adult_only : Bool
  has_split_payment : Bool
  discount_percentage : Option Nat
deriving DecidableEq

/-- Rust `Tags::default()`. -/
def defaultTags : Tags := ⟨false, false, false, none⟩

/-- Product struct from models.rs (camelCase wire keys). -/
structure Product where
  id : Nat
  name : String
  brand : String
  category : String
  price_min : ℚ
  total_offers : Nat
  url : String
  images : List String
  badges : Badges
  rating : Option Rating
  tags : Tags
deriving DecidableEq

/-- Deal struct from models.rs (same defaulting rules as Product, no category). -/
structure Deal where
  id : Nat
  name : String
  images : List String
  price_min : ℚ
  total_offers : Nat
  url : String
  brand : String
  badges : Badges
  rating : Option Rating
  tags : Tags
deriving DecidableEq

/-- PricePoint struct from models.rs (all three fields required). -/
structure PricePoint where
  date : String
  avg : ℚ
  min : ℚ
deriving DecidableEq

/-- PriceHistory struct from models.rs (minAxis, maxAxis, data required). -/
structure PriceHistory where
  min_axis : ℚ
  max_axis : ℚ
  data : List PricePoint
deriving DecidableEq

/-- Category struct from models.rs. -/
structure Category where
  id : Nat
  parent_id : Option Nat
  label : String
  slug : String
  has_child : Bool
  url : String
  image_url : Option String
deriving DecidableEq

/-- serde-derive deserializer for Badges. -/
def decodeBadges : Json → Option Badges
  | .obj kvs =>
    (optField kvs "isBestSeller" decodeBool false).bind fun a =>
    (optField kvs "isBestPrice" decodeBool false).bind fun b =>
    (optField kvs "isCustomersFavorite" decodeBool false).bind fun c =>
    (optField kvs "discountPercentage" (decodeOptional decodeU8) none).bind fun dp =>
    some ⟨a, b, c, dp⟩
  | _ => none

/-- serde-derive deserializer for Rating. -/
def decodeRating : Json → Option Rating
  | .obj kvs =>
    (optField kvs "ratingCount" decodeF64 0).bind fun rc =>
    (optField kvs "reviewsCount" decodeU32 0).bind fun rv =>
    some ⟨rc, rv⟩
  | _ => none

/-- serde-derive deserializer for Tags. -/
def decodeTags : Json → Option Tags
  | .obj kvs =>
    (optField kvs "isMarketplace" decodeBool false).bind fun a =>
    (optField kvs "adultOnly" decodeBool false).bind fun b =>
    (optField kvs "hasSplitPayment" decodeBool false).bind fun c =>
    (optField kvs "discountPercentage" (decodeOptional decodeU8) none).bind fun dp =>
    some ⟨a, b, c, dp⟩
  | _ => none

/-- serde-derive deserializer for Product: id and name required, the rest
serde(default), wire keys camelCase. -/
def decodeProduct : Json → Option Product
  | .obj kvs =>
    (reqField kvs "id" decodeU64).bind fun id =>
    (reqField kvs "name" decodeString).bind fun name =>
    (optField kvs "brand" decodeString "").bind fun brand =>
    (optField kvs "category" decodeString "").bind fun category =>
    (optField kvs "priceMin" decodeF64 0).bind fun price_min =>
    (optField kvs "totalOffers" decodeU32 0).bind fun total_offers =>
    (optField kvs "url" decodeString "").bind fun url =>
    (optField kvs "images" (decodeList decodeString) []).bind fun images =>
    (optField kvs "badges" decodeBadges defaultBadges).bind fun badges =>
    (optField kvs "rating" (decodeOptional decodeRating) none).bind fun rating =>
    (optField kvs "tags" decodeTags defaultTags).bind fun tags =>
    some ⟨id, name, brand, category, price_min, total_offers, url, images, badges, rating, tags⟩
  | _ => none

/-- serde-derive deserializer for PricePoint (all fields required, keys as written). -/
def decodePricePoint : Json → Option PricePoint
  | .obj kvs =>
    (reqField kvs "date" decodeString).bind fun date =>
    (reqField kvs "avg" decodeF64).bind fun avg =>
    (reqField kvs "min" decodeF64).bind fun mn =>
    some ⟨date, avg, mn⟩
  | _ => none

/-- serde-derive deserializer for PriceHistory (minAxis, maxAxis, data required). -/
def decodePriceHistory : Json → Option PriceHistory
  | .obj kvs =>
    (reqField kvs "minAxis" decodeF64).bind fun mn =>
    (reqField kvs "maxAxis" decodeF64).bind fun mx =>
    (reqField kvs "data" (decodeList decodePricePoint)).bind fun data =>
    some ⟨mn, mx, data⟩
  | _ => none

/-- serde-derive deserializer for Category (id, label, slug required). -/
def decodeCategory : Json → Option Category
  | .obj kvs =>
    (reqField kvs "id" decodeU64).bind fun id =>
    (optField kvs "parentId" (decodeOptional decodeU64) none).bind fun parent_id =>
    (reqField kvs "label" decodeString).bind fun label =>
    (reqField kvs "slug" decodeString).bind fun slug =>
    (optField kvs "hasChild" decodeBool false).bind fun has_child =>
    (optField kvs "url" decodeString "").bind fun url =>
    (optField kvs "imageUrl" (decodeOptional decodeString) none).bind fun image_url =>
    some ⟨id, parent_id, label, slug, has_child, url, image_url⟩
  | _ => none

/-- Product decoded from the minimal object with just id and name: every
optional field takes its Rust Default. -/
def minimalProduct (id : Nat) (name : String) : Product :=
  ⟨id, name, "", "", 0, 0, "", [], defaultBadges, none, defaultTags⟩

/-- Opening curly brace character (written via its code point). -/
def lbrace : Char := Char.ofNat 123

/-- Closing curly brace character (written via its code point). -/
def rbrace : Char := Char.ofNat 125

/-- Drop leading JSON whitespace (space, tab, newline, carriage return). -/
def skipWs : List Char → List Char
  | [] => []
  | c :: r => if c = ' ' ∨ c = '\t' ∨ c = '\n' ∨ c = '\r' then skipWs r else c :: r

/-- Value of a single hex digit. -/
def hexDigit (c : Char) : Option Nat :=
  if '0' ≤ c ∧ c ≤ '9' then some (c.toNat - 48)
  else if 'a' ≤ c ∧ c ≤ 'f' then some (c.toNat - 87)
  else if 'A' ≤ c ∧ c ≤ 'F' then some (c.toNat - 55)
  else none

/-- Parse exactly four hex digits (a \u escape payload). -/
def parseHex4 : List Char → Option (Nat × List Char)
  | a :: b :: c :: d :: r =>
    (hexDigit a).bind fun x =>
    (hexDigit b).bind fun y =>
    (hexDigit c).bind fun z =>
    (hexDigit d).bind fun w =>
    some (((x * 16 + y) * 16 + z) * 16 + w, r)
  | _ => none

/-- Parse the body of a JSON string after the opening quote, handling the
escape sequences serde_json accepts (incl. \uXXXX with surrogate pairs) and
rejecting raw control characters and lone surrogates. -/
def parseStringRest : Nat → List Char → List Char → Option (List Char × List Char)
  | 0, _, _ => none
  | _ + 1, [], _ => none
  | f + 1, c :: r, acc =>
    if c = '"' then some (acc.reverse, r)
    else if c = '\\' then
      match r with
      | [] => none
      | e :: r2 =>
        if e = '"' then parseStringRest f r2 ('"' :: acc)
        else if e = '\\' then parseStringRest f r2 ('\\' :: acc)
        else if e = '/' then parseStringRest f r2 ('/' :: acc)
        else if e = 'b' then parseStringRest f r2 (Char.ofNat 8 :: acc)
        else if e = 'f' then parseStringRest f r2 (Char.ofNat 12 :: acc)
        else if e = 'n' then parseStringRest f r2 ('\n' :: acc)
        else if e = 'r' then parseStringRest f r2 ('\r' :: acc)
        else if e = 't' then parseStringRest f r2 ('\t' :: acc)
        else if e = 'u' then
          match parseHex4 r2 with
          | none => none
          | some (n, r3) =>
            if 0xD800 ≤ n ∧ n < 0xDC00 then
              match r3 with
              | b1 :: b2 :: r4 =>
                if b1 = '\\' ∧ b2 = 'u' then
                  match parseHex4 r4 with
                  | some (m, r5) =>
                    if 0xDC00 ≤ m ∧ m < 0xE000 then
                      parseStringRest f r5
                        (Char.ofNat (0x10000 + (n - 0xD800) * 0x400 + (m - 0xDC00)) :: acc)
                    else none
                  | none => none
                else none
              | _ => none
            else if 0xDC00 ≤ n ∧ n < 0xE000 then none
            else parseStringRest f r3 (Char.ofNat n :: acc)
        else none
    else if c.toNat < 32 then none
    else parseStringRest f r (c :: acc)

/-- Numeric value of a digit string. -/
def digitsToNat (ds : List Char) : Nat :=
  ds.foldl (fun a c => a * 10 + (c.toNat - 48)) 0

/-- Parse an optional exponent part; `some (none, s)` means no exponent. -/
def parseExp (s : List Char) : Option (Option (Bool × Nat) × List Char) :=
  match s with
  | c :: r =>
    if c = 'e' ∨ c = 'E' then
      match r with
      | c2 :: r2 =>
        if c2 = '+' then
          let ds := (r2.span Char.isDigit).1
          if ds = [] then none else some (some (false, digitsToNat ds), (r2.span Char.isDigit).2)
        else if c2 = '-' then
          let ds := (r2.span Char.isDigit).1
          if ds = [] then none else some (some (true, digitsToNat ds), (r2.span Char.isDigit).2)
        else
          let ds := (r.span Char.isDigit).1
          if ds = [] then none else some (some (false, digitsToNat ds), (r.span Char.isDigit).2)
      | [] => none
    else some (none, s)
  | [] => some (none, s)

/-- Exact rational value of a parsed decimal number. -/
def mkFloat (neg : Bool) (ip : Nat) (fs : List Char) (ex : Option (Bool × Nat)) : ℚ :=
  let mant : ℚ := (ip : ℚ) + (digitsToNat fs : ℚ) / ((10 : ℚ) ^ fs.length)
  let signed := if neg then -mant else mant
  match ex with
  | none => signed
  | some (eneg, e) => if eneg then signed / ((10 : ℚ) ^ e) else signed * ((10 : ℚ) ^ e)

/-- Parse a JSON number.  A numeral with neither fraction nor exponent is an
integer (serde_json's i64/u64 path), otherwise a float. -/
def parseNumber (s : List Char) : Option (Json × List Char) :=
  let negs : Bool × List Char :=
    match s with
    | c :: r => if c = '-' then (true, r) else (false, s)
    | [] => (false, s)
  let neg := negs.1
  let ds := (negs.2.span Char.isDigit).1
  let s2 := (negs.2.span Char.isDigit).2
  if ds = [] then none
  else if 1 < ds.length ∧ ds.headD '0' = '0' then none
  else
    let ip := digitsToNat ds
    let fr : Option (List Char × List Char) :=
      match s2 with
      | c :: r => if c = '.' then some (r.span Char.isDigit) else none
      | [] => none
    match fr with
    | some (fs, s3) =>
      if fs = [] then none
      else
        match parseExp s3 with
        | none => none
        | some (ex, s4) => some (Json.float (mkFloat neg ip fs ex), s4)
    | none =>
      match parseExp s2 with
      | none => none
      | some (none, _) => some (Json.int (if neg then -(ip : Int) else (ip : Int)), s2)
      | some (some e, s4) => some (Json.float (mkFloat neg ip [] (some e)), s4)

/-- Parse the elements of a non-empty JSON array after the opening bracket,
given the value parser `pv`; fuel bounds the number of elements. -/
def parseArrRest (pv : List Char → Option (Json × List Char)) :
    Nat → List Char → Option (List Json × List Char)
  | 0, _ => none
  | f + 1, s =>
    match pv (skipWs s) with
    | none => none
    | some (v, r) =>
      match skipWs r with
      | c :: r2 =>
        if c = ',' then
          match parseArrRest pv f r2 with
          | some (vs, r3) => some (v :: vs, r3)
          | none => none
        else if c = ']' then some ([v], r2)
        else none
      | [] => none

/-- Parse the members of a non-empty JSON object after the opening brace,
given the value parser `pv`; fuel bounds the number of members. -/
def parseObjRest (pv : List Char → Option (Json × List Char)) :
    Nat → List Char → Option (List (String × Json) × List Char)
  | 0, _ => none
  | f + 1, s =>
    match skipWs s with
    | c :: r =>
      if c = '"' then
        match parseStringRest (r.length + 1) r [] with
        | none => none
        | some (key, r2) =>
          match skipWs r2 with
          | c2 :: r3 =>
            if c2 = ':' then
              match pv (skipWs r3) with
              | none => none
              | some (v, r4) =>
                match skipWs r4 with
                | c3 :: r5 =>
                  if c3 = ',' then
                    match parseObjRest pv f r5 with
                    | some (kvs, r6) => some ((String.mk key, v) :: kvs, r6)
                    | none => none
                  else if c3 = rbrace then some ([(String.mk key, v)], r5)
                  else none
                | [] => none
            else none
          | [] => none
      else none
    | [] => none

/-- Parse one JSON value; fuel bounds the nesting depth. -/
def parseVal : Nat → List Char → Option (Json × List Char)
  | 0, _ => none
  | f + 1, s =>
    match skipWs s with
    | [] => none
    | c :: r =>
      if c = 'n' then
        if List.isPrefixOf ['u', 'l', 'l'] r then some (Json.null, r.drop 3) else none
      else if c = 't' then
        if List.isPrefixOf ['r', 'u', 'e'] r then some (Json.bool true, r.drop 3) else none
      else if c = 'f' then
        if List.isPrefixOf ['a', 'l', 's', 'e'] r then some (Json.bool false, r.drop 4) else none
      else if c = '"' then
        match parseStringRest (r.length + 1) r [] with
        | some (cs, rest) => some (Json.str (String.mk cs), rest)
        | none => none
      else if c = '[' then
        match skipWs r with
        | c2 :: r2 =>
          if c2 = ']' then some (Json.arr [], r2)
          else
            match parseArrRest (parseVal f) (r.length + 1) r with
            | some (vs, rest) => some (Json.arr vs, rest)
            | none => none
        | [] => none
      else if c = lbrace then
        match skipWs r with
        | c2 :: r2 =>
          if c2 = rbrace then some (Json.obj [], r2)
          else
            match parseObjRest (parseVal f) (r.length + 1) r with
            | some (kvs, rest) => some (Json.obj kvs, rest)
            | none => none
        | [] => none
      else if c = '-' ∨ c.isDigit then parseNumber (c :: r)
      else none

/-- Model of `serde_json` text parsing: parse one value and require only
whitespace to remain.  The fuel `s.length + 1` dominates any nesting depth. -/
def jsonParse (s : List Char) : Option Json :=
  match parseVal (s.length + 1) s with
  | some (j, rest) => if skipWs rest = [] then some j else none
  | none => none

/-- BasePage struct from scraper.rs: both fields required. -/
structure BasePage where
  data : List Product
  total : Nat
deriving DecidableEq

/-- PageProps struct from scraper.rs. -/
structure PageProps where
  base_page : BasePage
deriving DecidableEq

/-- Props struct from scraper.rs. -/
structure Props where
  page_props : PageProps
deriving DecidableEq

/-- NextData struct from scraper.rs. -/
structure NextData where
  props : Props
deriving DecidableEq

/-- serde-derive deserializer for BasePage (data and total required). -/
def decodeBasePage : Json → Option BasePage
  | .obj kvs =>
    (reqField kvs "data" (decodeList decodeProduct)).bind fun data =>
    (reqField kvs "total" decodeU64).bind fun total =>
    some ⟨data, total⟩
  | _ => none

/-- serde-derive deserializer for PageProps (basePage required, camelCase key). -/
def decodePageProps : Json → Option PageProps
  | .obj kvs => (reqField kvs "basePage" decodeBasePage).map PageProps.mk
  | _ => none

/-- serde-derive deserializer for Props (pageProps required, camelCase key). -/
def decodeProps : Json → Option Props
  | .obj kvs => (reqField kvs "pageProps" decodePageProps).map Props.mk
  | _ => none

/-- serde-derive deserializer for NextData (props required). -/
def decodeNextData : Json → Option NextData
  | .obj kvs => (reqField kvs "props" decodeProps).map NextData.mk
  | _ => none

/-- Model of `serde_json::from_str::<NextData>`. -/
def from_str_next_data (s : List Char) : Option NextData :=
  (jsonParse s).bind decodeNextData

/-- Model of Rust `str::find`: offset of the first occurrence of `pat`.
The patterns searched for in scraper.rs are ASCII, so byte offsets and
character offsets coincide. -/
def strFind : List Char → List Char → Option Nat
  | [], pat => if pat = [] then some 0 else none
  | c :: rest, pat =>
    if List.isPrefixOf pat (c :: rest) then some 0
    else (strFind rest pat).map (· + 1)

/-- Model of Rust `str::contains`. -/
def strContains (s pat : List Char) : Bool :=
  (strFind s pat).isSome

/-- An occurrence of `pat` in `s` at offset `i`. -/
def occursAt (s pat : List Char) (i : Nat) : Prop :=
  List.isPrefixOf pat (s.drop i) = true

instance (s pat : List Char) (i : Nat) : Decidable (occursAt s pat i) :=
  inferInstanceAs (Decidable (List.isPrefixOf pat (s.drop i) = true))

/-- Start marker of the embedded payload in scraper.rs. -/
def startMarker : List Char :=
  ("<script id=\"__NEXT_DATA__\" type=\"application/json\">").data

/-- End marker of the embedded payload in scraper.rs. -/
def endMarker : List Char := ("</script>").data

/-- Block-page marker substring checked in scraper.rs. -/
def accessDenied : List Char := ("Access Denied").data

/-- Error kinds surfaced by `parse_search_html` (anyhow messages in the code,
distinguishable kinds per spec section 7). -/
inductive ScrapeError where
  | blocked : ScrapeError
  | markerNotFound : ScrapeError
  | unterminatedPayload : ScrapeError
  | decodeFailure : ScrapeError
deriving DecidableEq

/-- SearchResult struct from scraper.rs. -/
structure SearchResult where
  products : List Product
  total : Nat
deriving DecidableEq

/-- Marker-delimited extraction step of `parse_search_html` (scraper.rs
lines 83-91): find the start marker, slice after it, find the end marker in
the tail, return the text strictly between them. -/
def extractNextData (html : List Char) : Except ScrapeError (List Char) :=
  match strFind html startMarker with
  | none => Except.error ScrapeError.markerNotFound
  | some start =>
    let json_start := start + startMarker.length
    match strFind (html.drop json_start) endMarker with
    | none => Except.error ScrapeError.unterminatedPayload
    | some json_end => Except.ok ((html.drop json_start).take json_end)

/-- Model of `parse_search_html` (scraper.rs lines 76-99): block-page guard,
marker-delimited extraction, serde decode, truncation of the product list to
`mx` entries with the site-reported total passed through. -/
def parse_search_html (html : List Char) (mx : Nat) : Except ScrapeError SearchResult :=
  if strContains html accessDenied then Except.error ScrapeError.blocked
  else
    match extractNextData html with
    | Except.error e => Except.error e
    | Except.ok json_str =>
      match from_str_next_data json_str with
      | none => Except.error ScrapeError.decodeFailure
      | some next_data =>
        Except.ok
          ⟨next_data.props.page_props.base_page.data.take mx,
           next_data.props.page_props.base_page.total⟩

/-- Discount resolution shared by the deal renderers in format/mod.rs:
`d.badges.discount_percentage.or(d.tags.discount_percentage)`. -/
def dealDiscount (d : Deal) : Option Nat :=
  Option.or d.badges.discount_percentage d.tags.discount_percentage

/-- Discount cell of `format_deals_table` (format/mod.rs lines 109-114):
`.map(|d| format!("-{d}%")).unwrap_or_default()`. -/
def dealDiscountTable (d : Deal) : String :=
  ((dealDiscount d).map (fun n => "-" ++ Nat.repr n ++ "%")).getD ""

/-- Discount value of `format_deals_compact` (format/mod.rs line 129):
`.or(..).unwrap_or(0)`. -/
def dealDiscountCompact (d : Deal) : Nat :=
  (dealDiscount d).getD 0

/-- Rust `str::is_char_boundary` over UTF-8 bytes: offset 0, the total
length, or any offset whose byte is not a continuation byte. -/
def isCharBoundary (s : List Nat) (i : Nat) : Bool :=
  if i = 0 then true
  else if i = s.length then true
  else if i < s.length then
    if 128 ≤ s.getD i 0 ∧ s.getD i 0 < 192 then false else true
  else false

/-- UTF-8 bytes of the ellipsis character appended by `truncate`. -/
def ellipsisBytes : List Nat := [226, 128, 166]

/-- Model of `format::truncate` (format/mod.rs lines 190-196) over UTF-8
bytes; `none` models a panic.  With `s.len() > max`, the code evaluates
`&s[..max - 1]`: for `max = 0` the subtraction panics in debug builds and
wraps to an out-of-bounds index in release builds (a panic either way), and
for `max - 1` not on a character boundary the byte slice panics. -/
def truncate (s : List Nat) (mx : Nat) : Option (List Nat) :=
  if s.length ≤ mx then some s
  else
    match mx with
    | 0 => none
    | m + 1 => if isCharBoundary s m then some (s.take m ++ ellipsisBytes) else none

/-- Number of characters encoded by a UTF-8 byte list (count of
non-continuation bytes). -/
def utf8CharCount (s : List Nat) : Nat :=
  (s.filter (fun b => !(128 ≤ b ∧ b < 192 : Bool))).length

/-- Rust `f64 as u32`: truncate toward zero, saturating at the bounds
(client.rs line 63).  Floats are modelled as exact rationals. -/
def f64_as_u32 (q : ℚ) : Nat :=
  if q < 0 then 0 else min ⌊q⌋.toNat 4294967295

/-- priceRange token built by `KuantoKustaClient::deals` (client.rs
lines 62-63). -/
def priceRangeToken (min_price max_price : Option ℚ) : String :=
  Nat.repr (f64_as_u32 (min_price.getD 0)) ++ "_" ++
    Nat.repr (f64_as_u32 (max_price.getD 50000))

/-- discountRange token built by `KuantoKustaClient::deals` (client.rs
line 67). -/
def discountRangeToken (min_discount : Option Nat) : String :=
  "FROM_" ++ Nat.repr (min_discount.getD 5)

/-- Query parameters of the deals request in the order client.rs appends
them (lines 58-70). -/
def dealsQuery (rows page : Nat) (min_discount : Option Nat)
    (min_price max_price : Option ℚ) : List (String × String) :=
  [("priceRange", priceRangeToken min_price max_price),
   ("discountRange", discountRangeToken min_discount),
   ("rows", Nat.repr rows),
   ("page", Nat.repr page)]

/-- Concrete embedded payload used to instantiate the search theorems. -/
def c1Payload : List Char :=
  ("\x7b\"props\":\x7b\"pageProps\":\x7b\"basePage\":\x7b\"data\":[\x7b\"id\":1,\"name\":\"A\"\x7d],\"total\":100\x7d\x7d\x7d\x7d").data

/-- Concrete search page: the payload surrounded by the marker pair. -/
def c1Html : List Char := startMarker ++ c1Payload ++ endMarker

/-- Decoded form of `c1Payload`. -/
def c1NextData : NextData := ⟨⟨⟨⟨[minimalProduct 1 "A"], 100⟩⟩⟩⟩

/-- Concrete page containing both the block marker and a valid payload. -/
def c4Html : List Char := ("Access Denied ").data ++ c1Html

/-- Concrete deal whose badges carry no discount but whose tags carry 15. -/
def c9Deal : Deal :=
  ⟨1, "d", [], 0, 0, "", "", defaultBadges, none,
   { defaultTags with discount_percentage := some 15 }⟩

/-- Concrete prefix text for the extractor round-trip instance. -/
def c2Pre : List Char := ("<html><body>").data

/-- Concrete suffix text for the extractor round-trip instance. -/
def c2Suf : List Char := ("</body></html>").data

/-- Concrete page without the start marker. -/
def c3Html1 : List Char := ("<html><body>No data here</body></html>").data

/-- Concrete page with the start marker but no closing tag after it. -/
def c3Html2 : List Char := startMarker ++ ("\x7b\"test\": true").data

end KK

namespace KK

theorem strFind_of_isPrefixOf {s pat : List Char} (h : List.isPrefixOf pat s = true) :
    strFind s pat = some 0 := by
  cases s with
  | nil =>
    have : pat = [] := by
      have := List.isPrefixOf_iff_prefix.mp h
      simpa using this
    simp [strFind, this]
  | cons c rest => simp [strFind, h]

theorem strFind_first {pat : List Char} :
    ∀ (i : Nat) (s : List Char), (∀ j, j < i → ¬ occursAt s pat j) → occursAt s pat i →
      strFind s pat = some i := by
  intro i
  induction i with
  | zero =>
    intro s _ hat
    exact strFind_of_isPrefixOf (by simpa [occursAt] using hat)
  | succ k ih =>
    intro s hbefore hat
    cases s with
    | nil =>
      exfalso
      apply hbefore 0 (Nat.succ_pos k)
      unfold occursAt at hat ⊢
      simp only [List.drop_nil] at hat
      simpa using hat
    | cons c rest =>
      have h0 : ¬ occursAt (c :: rest) pat 0 := hbefore 0 (Nat.succ_pos k)
      have h0' : List.isPrefixOf pat (c :: rest) = false := by
        unfold occursAt at h0
        simp only [List.drop_zero] at h0
        exact Bool.eq_false_iff.mpr h0
      have hrest : strFind rest pat = some k := by
        apply ih
        · intro j hj
          have := hbefore (j + 1) (Nat.succ_lt_succ hj)
          unfold occursAt at this ⊢
          simpa [List.drop_succ_cons] using this
        · unfold occursAt at hat ⊢
          simpa [List.drop_succ_cons] using hat
      simp [strFind, h0', hrest]

theorem strFind_some_occurs {pat : List Char} :
    ∀ {s : List Char} {i : Nat}, strFind s pat = some i → occursAt s pat i := by
  intro s
  induction s with
  | nil =>
    intro i h
    unfold strFind at h
    by_cases hp : pat = []
    · simp [hp] at h
      subst h
      simp [occursAt, hp, List.isPrefixOf]
    · simp [hp] at h
  | cons c rest ih =>
    intro i h
    unfold strFind at h
    by_cases hp : List.isPrefixOf pat (c :: rest) = true
    · simp [hp] at h
      subst h
      simpa [occursAt] using hp
    · simp [hp] at h
      obtain ⟨j, hj, rfl⟩ := h
      have := ih hj
      unfold occursAt at this ⊢
      simpa [List.drop_succ_cons] using this

theorem strFind_none_of_not_occurs {s pat : List Char} (h : ∀ i, ¬ occursAt s pat i) :
    strFind s pat = none := by
  cases heq : strFind s pat with
  | none => rfl
  | some i => exact absurd (strFind_some_occurs heq) (h i)

theorem strFind_none_occurs {pat : List Char} :
    ∀ {s : List Char}, strFind s pat = none → ∀ i, ¬ occursAt s pat i := by
  intro s
  induction s with
  | nil =>
    intro h i hocc
    unfold strFind at h
    by_cases hp : pat = []
    · simp [hp] at h
    · unfold occursAt at hocc
      simp only [List.drop_nil] at hocc
      exact hp (by simpa using hocc)
  | cons c rest ih =>
    intro h i hocc
    unfold strFind at h
    by_cases hp : List.isPrefixOf pat (c :: rest) = true
    · simp [hp] at h
    · simp [hp] at h
      cases i with
      | zero =>
        unfold occursAt at hocc
        simp only [List.drop_zero] at hocc
        exact hp hocc
      | succ j =>
        apply ih h j
        unfold occursAt at hocc ⊢
        simpa [List.drop_succ_cons] using hocc

theorem strContains_of_occurs {s pat : List Char} {i : Nat} (h : occursAt s pat i) :
    strContains s pat = true := by
  unfold strContains
  cases heq : strFind s pat with
  | some j => rfl
  | none => exact absurd h (strFind_none_occurs heq i)

theorem strContains_false_no_occurs {s pat : List Char} (h : strContains s pat = false) :
    ∀ i, ¬ occursAt s pat i := by
  intro i hocc
  rw [strContains_of_occurs hocc] at h
  exact Bool.noConfusion h

theorem prefix_getD {m t : List Char} (h : m <+: t) {j : Nat} (hj : j < m.length) (d : Char) :
    m.getD j d = t.getD j d := by
  rw [List.getD_eq_getElem?_getD, List.getD_eq_getElem?_getD]
  have hm := List.prefix_iff_eq_take.mp h
  conv_lhs => rw [hm]
  rw [List.getElem?_take, if_pos hj]

theorem drop_getD (l : List Char) (n j : Nat) (d : Char) :
    (l.drop n).getD j d = l.getD (n + j) d := by
  rw [List.getD_eq_getElem?_getD, List.getD_eq_getElem?_getD, List.getElem?_drop]

theorem prefix_of_append_left {m a b : List Char} (h : m <+: a ++ b)
    (hlen : m.length ≤ a.length) : m <+: a := by
  have h2 : m = (a ++ b).take m.length := List.prefix_iff_eq_take.mp h
  have htake : (a ++ b).take m.length = a.take m.length := by
    rw [List.take_append_eq_append_take, Nat.sub_eq_zero_of_le hlen, List.take_zero,
      List.append_nil]
  exact List.prefix_iff_eq_take.mpr (h2.trans htake)

theorem no_occurs_before_glue (pre m rest : List Char) (hne : m ≠ [])
    (huniq : ∀ j, j < m.length → m.getD j ' ' = m.getD 0 ' ' → j = 0)
    (hpre : ∀ i, ¬ occursAt pre m i) :
    ∀ i, i < pre.length → ¬ occursAt (pre ++ (m ++ rest)) m i := by
  intro i hi hocc
  unfold occursAt at hocc
  have hpref : m <+: (pre ++ (m ++ rest)).drop i := List.isPrefixOf_iff_prefix.mp hocc
  by_cases hle : i + m.length ≤ pre.length
  · apply hpre i
    unfold occursAt
    apply List.isPrefixOf_iff_prefix.mpr
    have hdrop : (pre ++ (m ++ rest)).drop i = pre.drop i ++ (m ++ rest) := by
      rw [List.drop_append_eq_append_drop, Nat.sub_eq_zero_of_le (le_of_lt hi), List.drop_zero]
    rw [hdrop] at hpref
    apply prefix_of_append_left hpref
    rw [List.length_drop]
    omega
  · have hlt : pre.length < i + m.length := by omega
    have hj0 : 0 < pre.length - i := by omega
    have hjm : pre.length - i < m.length := by omega
    have e1 : m.getD (pre.length - i) ' ' = ((pre ++ (m ++ rest)).drop i).getD (pre.length - i) ' ' :=
      prefix_getD hpref hjm ' '
    have e2 : ((pre ++ (m ++ rest)).drop i).getD (pre.length - i) ' '
        = (pre ++ (m ++ rest)).getD pre.length ' ' := by
      rw [drop_getD]
      congr 1
      omega
    have e3 : (pre ++ (m ++ rest)).getD pre.length ' ' = (m ++ rest).getD 0 ' ' := by
      rw [List.getD_eq_getElem?_getD, List.getD_eq_getElem?_getD,
        List.getElem?_append_right (le_refl pre.length), Nat.sub_self]
    have e4 : (m ++ rest).getD 0 ' ' = m.getD 0 ' ' := by
      rw [List.getD_eq_getElem?_getD, List.getD_eq_getElem?_getD, List.getElem?_append,
        if_pos (List.length_pos.mpr hne)]
    have : m.getD (pre.length - i) ' ' = m.getD 0 ' ' := by rw [e1, e2, e3, e4]
    exact absurd (huniq _ hjm this) (Nat.pos_iff_ne_zero.mp hj0)

theorem strFind_glue (pre m rest : List Char) (hne : m ≠ [])
    (huniq : ∀ j, j < m.length → m.getD j ' ' = m.getD 0 ' ' → j = 0)
    (hpre : ∀ i, ¬ occursAt pre m i) :
    strFind (pre ++ (m ++ rest)) m = some pre.length := by
  apply strFind_first
  · exact fun j hj => no_occurs_before_glue pre m rest hne huniq hpre j hj
  · unfold occursAt
    rw [List.drop_left]
    exact List.isPrefixOf_iff_prefix.mpr (List.prefix_append m rest)

theorem drop_glue (pre m rest : List Char) :
    (pre ++ (m ++ rest)).drop (pre.length + m.length) = rest := by
  rw [← List.append_assoc, ← List.length_append]
  exact List.drop_left _ _

/-- C2: extractor round-trip.  For every payload P containing neither the end
marker nor the block marker, and every prefix (in which the start marker does
not occur) and suffix, extraction on
prefix ++ startMarker ++ P ++ endMarker ++ suffix returns exactly P: the text
strictly between the end of the first start-marker occurrence and the first
subsequent end-marker occurrence. -/
theorem c2_extract_round_trip (P pre suf : List Char)
    (hP_end : ∀ i, ¬ occursAt P endMarker i)
    (hP_ad : ∀ i, ¬ occursAt P accessDenied i)
    (hpre : ∀ i, ¬ occursAt pre startMarker i) :
    extractNextData (pre ++ (startMarker ++ (P ++ (endMarker ++ suf)))) = Except.ok P := by
  have hsm_ne : startMarker ≠ [] := by decide
  have hsm_uniq : ∀ j, j < startMarker.length →
      startMarker.getD j ' ' = startMarker.getD 0 ' ' → j = 0 := by decide
  have hem_ne : endMarker ≠ [] := by decide
  have hem_uniq : ∀ j, j < endMarker.length →
      endMarker.getD j ' ' = endMarker.getD 0 ' ' → j = 0 := by decide
  have h1 : strFind (pre ++ (startMarker ++ (P ++ (endMarker ++ suf)))) startMarker
      = some pre.length := strFind_glue pre startMarker _ hsm_ne hsm_uniq hpre
  have h2 : (pre ++ (startMarker ++ (P ++ (endMarker ++ suf)))).drop
      (pre.length + startMarker.length) = P ++ (endMarker ++ suf) :=
    drop_glue pre startMarker _
  have h3 : strFind (P ++ (endMarker ++ suf)) endMarker = some P.length :=
    strFind_glue P endMarker suf hem_ne hem_uniq hP_end
  unfold extractNextData
  simp only [h1, h2, h3, List.take_left]

/-- C3: for HTML without the block marker, a missing start marker fails with
the MarkerNotFound kind, and a present start marker with no end marker after
it fails with the distinct UnterminatedPayload kind. -/
theorem c3_extraction_errors (html : List Char) (mx : Nat)
    (had : strContains html accessDenied = false) :
    ((∀ i, ¬ occursAt html startMarker i) →
      parse_search_html html mx = Except.error ScrapeError.markerNotFound) ∧
    (∀ st, strFind html startMarker = some st →
      (∀ i, ¬ occursAt (html.drop (st + startMarker.length)) endMarker i) →
      parse_search_html html mx = Except.error ScrapeError.unterminatedPayload) := by
  constructor
  · intro hno
    unfold parse_search_html extractNextData
    simp only [had, strFind_none_of_not_occurs hno]
    simp
  · intro st hst hno
    unfold parse_search_html extractNextData
    simp only [had, hst, strFind_none_of_not_occurs hno]
    simp

/-- C4: any page containing the "Access Denied" substring anywhere is
classified Blocked, before extraction is even attempted, so no other error
kind or success can be produced (even when a valid marker pair is present). -/
theorem c4_blocked_guard (html : List Char) (mx : Nat) (i : Nat)
    (h : occursAt html accessDenied i) :
    parse_search_html html mx = Except.error ScrapeError.blocked := by
  unfold parse_search_html
  rw [strContains_of_occurs h]
  simp

/-- C1: when the guard passes, the markers are found and the payload decodes,
parse_search_html returns exactly the first mx entries of the decoded data
list, in order (empty when mx = 0, the whole list when mx exceeds its
length), with the site-reported total passed through unchanged. -/
theorem c1_search_cap_and_total (html : List Char) (mx st en : Nat) (nd : NextData)
    (had : strContains html accessDenied = false)
    (hst : strFind html startMarker = some st)
    (hen : strFind (html.drop (st + startMarker.length)) endMarker = some en)
    (hdec : from_str_next_data ((html.drop (st + startMarker.length)).take en) = some nd) :
    parse_search_html html mx =
      Except.ok ⟨nd.props.page_props.base_page.data.take mx,
        nd.props.page_props.base_page.total⟩ ∧
    (nd.props.page_props.base_page.data.take mx).length =
      min mx nd.props.page_props.base_page.data.length ∧
    (mx = 0 → nd.props.page_props.base_page.data.take mx = []) ∧
    (nd.props.page_props.base_page.data.length ≤ mx →
      nd.props.page_props.base_page.data.take mx = nd.props.page_props.base_page.data) := by
  refine ⟨?_, ?_, ?_, ?_⟩
  · unfold parse_search_html extractNextData
    simp only [had, hst, hen, hdec]
    simp
  · exact List.length_take mx _
  · intro h
    subst h
    simp
  · intro h
    exact List.take_of_length_le h

theorem c1_search_cap_and_total_witness :
    parse_search_html c1Html 0 =
      Except.ok ⟨c1NextData.props.page_props.base_page.data.take 0,
        c1NextData.props.page_props.base_page.total⟩ :=
  (c1_search_cap_and_total c1Html 0 0 c1Payload.length c1NextData (by decide) (by decide)
    (by decide) (by decide)).1

theorem c2_extract_round_trip_witness :
    extractNextData (c2Pre ++ (startMarker ++ (c1Payload ++ (endMarker ++ c2Suf))))
      = Except.ok c1Payload :=
  c2_extract_round_trip c1Payload c2Pre c2Suf
    (strContains_false_no_occurs (by decide))
    (strContains_false_no_occurs (by decide))
    (strContains_false_no_occurs (by decide))

theorem c3_extraction_errors_witness :
    parse_search_html c3Html1 10 = Except.error ScrapeError.markerNotFound ∧
    parse_search_html c3Html2 10 = Except.error ScrapeError.unterminatedPayload :=
  ⟨(c3_extraction_errors c3Html1 10 (by decide)).1 (strContains_false_no_occurs (by decide)),
   (c3_extraction_errors c3Html2 10 (by decide)).2 0 (by decide)
     (strContains_false_no_occurs (by decide))⟩

theorem c4_blocked_guard_witness :
    parse_search_html c4Html 10 = Except.error ScrapeError.blocked :=
  c4_blocked_guard c4Html 10 0 (by decide)

theorem decodeU64_int_of_lt {id : Nat} (h : id < 18446744073709551616) :
    decodeU64 (Json.int id) = some id := by
  have hcond : 0 ≤ (id : Int) ∧ (id : Int) < 18446744073709551616 :=
    ⟨Int.natCast_nonneg id, by exact_mod_cast h⟩
  simp [decodeU64, hcond]

theorem getField_cons_self (k : String) (v : Json) (l : List (String × Json)) :
    getField ((k, v) :: l) k = some v := by
  simp [getField]

theorem f64_as_u32_natCast (n : Nat) (h : n ≤ 4294967295) : f64_as_u32 (n : ℚ) = n := by
  unfold f64_as_u32
  rw [if_neg (not_lt.mpr (by exact_mod_cast Nat.zero_le n)), Int.floor_natCast]
  simp [Nat.min_eq_left h]

/-- C5: the deals request serializes the price filter as one token, each
bound truncated to an integer and joined with an underscore (absent lower
bound 0, absent upper bound 50000), and the discount filter as
FROM_ followed by the integer minimum (absent minimum 5); in particular
min=None,max=None gives "0_50000", discount=None gives "FROM_5" and
min=10.0,max=100.0 gives "10_100". -/
theorem c5_deals_query_tokens (rows page : Nat) (md : Option Nat) (mp Mp : Option ℚ) :
    (dealsQuery rows page md mp Mp).lookup "priceRange"
      = some (Nat.repr (f64_as_u32 (mp.getD 0)) ++ "_" ++
          Nat.repr (f64_as_u32 (Mp.getD 50000))) ∧
    (dealsQuery rows page md mp Mp).lookup "discountRange"
      = some ("FROM_" ++ Nat.repr (md.getD 5)) ∧
    priceRangeToken none none = "0_50000" ∧
    discountRangeToken none = "FROM_5" ∧
    priceRangeToken (some 10) (some 100) = "10_100" := by
  have e0 : f64_as_u32 (0 : ℚ) = 0 := by
    rw [show (0 : ℚ) = ((0 : ℕ) : ℚ) by norm_num]
    exact f64_as_u32_natCast 0 (by norm_num)
  have e50000 : f64_as_u32 (50000 : ℚ) = 50000 := by
    rw [show (50000 : ℚ) = ((50000 : ℕ) : ℚ) by norm_num]
    exact f64_as_u32_natCast 50000 (by norm_num)
  have e10 : f64_as_u32 (10 : ℚ) = 10 := by
    rw [show (10 : ℚ) = ((10 : ℕ) : ℚ) by norm_num]
    exact f64_as_u32_natCast 10 (by norm_num)
  have e100 : f64_as_u32 (100 : ℚ) = 100 := by
    rw [show (100 : ℚ) = ((100 : ℕ) : ℚ) by norm_num]
    exact f64_as_u32_natCast 100 (by norm_num)
  refine ⟨rfl, rfl, ?_, by decide, ?_⟩
  · simp only [priceRangeToken, Option.getD_none, e0, e50000]
    decide
  · simp only [priceRangeToken, Option.getD_some, e10, e100]
    decide

/-- C7: a Product object carrying only the required id and name (with values
of the correct types) decodes, and every optional field takes its documented
default: empty brand, category and url, price 0, zero offers, no images, no
rating, all-false badges and tags. -/
theorem c7_minimal_product_defaults (idv : Json) (i : Nat) (hid : decodeU64 idv = some i)
    (name : String) :
    decodeProduct (Json.obj [("id", idv), ("name", Json.str name)])
      = some (minimalProduct i name) := by
  simp only [decodeProduct, reqField, getField_cons_self, Option.some_bind, hid]
  rfl

theorem c7_minimal_product_defaults_witness :
    decodeProduct (Json.obj [("id", Json.int 123), ("name", Json.str "Test Product")])
      = some (minimalProduct 123 "Test Product") :=
  c7_minimal_product_defaults (Json.int 123) 123 (by decide) "Test Product"

/-- Counterexample to C6 as stated: the optional field brand present with an
explicit JSON null makes the whole Product decode fail (serde(default) only
covers an absent key; null does not deserialize into a String). -/
theorem c6_counterexample_null_brand :
    decodeProduct (Json.obj [("id", Json.int 1), ("name", Json.str "x"), ("brand", Json.null)])
      = none := by decide

set_option maxHeartbeats 1600000 in
/-- C6 (amended): among the optional Product fields only the Option-typed
rating decodes an explicit null (to its default None); for the other optional
fields (brand, category, priceMin, totalOffers, url, images, badges, tags) an
explicit null is a decode failure, while an absent key yields the default;
unknown extra fields are ignored. -/
theorem c6_null_only_for_option_fields (idv : Json) (i : Nat) (hid : decodeU64 idv = some i)
    (name : String) (v : Json) :
    decodeProduct (Json.obj [("id", idv), ("name", Json.str name), ("rating", Json.null)])
      = some (minimalProduct i name) ∧
    decodeProduct (Json.obj [("id", idv), ("name", Json.str name), ("brand", Json.null)])
      = none ∧
    decodeProduct (Json.obj [("id", idv), ("name", Json.str name), ("category", Json.null)])
      = none ∧
    decodeProduct (Json.obj [("id", idv), ("name", Json.str name), ("priceMin", Json.null)])
      = none ∧
    decodeProduct (Json.obj [("id", idv), ("name", Json.str name), ("totalOffers", Json.null)])
      = none ∧
    decodeProduct (Json.obj [("id", idv), ("name", Json.str name), ("url", Json.null)])
      = none ∧
    decodeProduct (Json.obj [("id", idv), ("name", Json.str name), ("images", Json.null)])
      = none ∧
    decodeProduct (Json.obj [("id", idv), ("name", Json.str name), ("badges", Json.null)])
      = none ∧
    decodeProduct (Json.obj [("id", idv), ("name", Json.str name), ("tags", Json.null)])
      = none ∧
    decodeProduct (Json.obj [("id", idv), ("name", Json.str name), ("someUnknownKey", v)])
      = some (minimalProduct i name) := by
  refine ⟨?_, ?_, ?_, ?_, ?_, ?_, ?_, ?_, ?_, ?_⟩ <;>
  · simp only [decodeProduct, reqField, getField_cons_self, Option.some_bind, hid]
    rfl

theorem c6_null_only_for_option_fields_witness :
    decodeProduct (Json.obj [("id", Json.int 1), ("name", Json.str "x"), ("rating", Json.null)])
      = some (minimalProduct 1 "x") :=
  (c6_null_only_for_option_fields (Json.int 1) 1 (by decide) "x" Json.null).1

/-- C8: a required field that is missing or whose value does not decode with
the field's type makes the whole decode fail with no partial value: id and
name for Product, minAxis, maxAxis and data for PriceHistory, id, label and
slug for Category. -/
theorem c8_required_field_failures (kvs : List (String × Json)) :
    (reqField kvs "id" decodeU64 = none → decodeProduct (Json.obj kvs) = none) ∧
    (reqField kvs "name" decodeString = none → decodeProduct (Json.obj kvs) = none) ∧
    (reqField kvs "minAxis" decodeF64 = none → decodePriceHistory (Json.obj kvs) = none) ∧
    (reqField kvs "maxAxis" decodeF64 = none → decodePriceHistory (Json.obj kvs) = none) ∧
    (reqField kvs "data" (decodeList decodePricePoint) = none →
      decodePriceHistory (Json.obj kvs) = none) ∧
    (reqField kvs "id" decodeU64 = none → decodeCategory (Json.obj kvs) = none) ∧
    (reqField kvs "label" decodeString = none → decodeCategory (Json.obj kvs) = none) ∧
    (reqField kvs "slug" decodeString = none → decodeCategory (Json.obj kvs) = none) := by
  refine ⟨?_, ?_, ?_, ?_, ?_, ?_, ?_, ?_⟩
  · intro h
    simp [decodeProduct, h]
  · intro h
    cases hid : reqField kvs "id" decodeU64 with
    | none => simp [decodeProduct, hid]
    | some i => simp [decodeProduct, hid, h]
  · intro h
    simp [decodePriceHistory, h]
  · intro h
    cases h1 : reqField kvs "minAxis" decodeF64 with
    | none => simp [decodePriceHistory, h1]
    | some a => simp [decodePriceHistory, h1, h]
  · intro h
    cases h1 : reqField kvs "minAxis" decodeF64 with
    | none => simp [decodePriceHistory, h1]
    | some a =>
      cases h2 : reqField kvs "maxAxis" decodeF64 with
      | none => simp [decodePriceHistory, h1, h2]
      | some b => simp [decodePriceHistory, h1, h2, h]
  · intro h
    simp [decodeCategory, h]
  · intro h
    cases h1 : reqField kvs "id" decodeU64 with
    | none => simp [decodeCategory, h1]
    | some a =>
      cases h2 : optField kvs "parentId" (decodeOptional decodeU64) none with
      | none => simp [decodeCategory, h1, h2]
      | some b => simp [decodeCategory, h1, h2, h]
  · intro h
    cases h1 : reqField kvs "id" decodeU64 with
    | none => simp [decodeCategory, h1]
    | some a =>
      cases h2 : optField kvs "parentId" (decodeOptional decodeU64) none with
      | none => simp [decodeCategory, h1, h2]
      | some b =>
        cases h3 : reqField kvs "label" decodeString with
        | none => simp [decodeCategory, h1, h2, h3]
        | some c => simp [decodeCategory, h1, h2, h3, h]

theorem c8_required_field_failures_witness :
    decodeProduct (Json.obj [("name", Json.str "x")]) = none ∧
    decodeProduct (Json.obj [("id", Json.str "y"), ("name", Json.str "x")]) = none ∧
    decodePriceHistory (Json.obj []) = none ∧
    decodeCategory (Json.obj [("id", Json.int 7), ("slug", Json.str "s")]) = none :=
  ⟨(c8_required_field_failures _).1 (by decide),
   (c8_required_field_failures _).1 (by decide),
   (c8_required_field_failures _).2.2.1 (by decide),
   (c8_required_field_failures _).2.2.2.2.2.2.1 (by decide)⟩

/-- C9: the effective deal discount is resolved purely from the two
candidates in both renderers: the Badges percentage when present, else the
Tags percentage when present, else no discount (never an error); in
particular badges-absent with tags=15 resolves to 15. -/
theorem c9_deal_discount_resolution (d : Deal) :
    (∀ p, d.badges.discount_percentage = some p →
      dealDiscount d = some p ∧ dealDiscountCompact d = p ∧
      dealDiscountTable d = "-" ++ Nat.repr p ++ "%") ∧
    (d.badges.discount_percentage = none → ∀ q, d.tags.discount_percentage = some q →
      dealDiscount d = some q ∧ dealDiscountCompact d = q ∧
      dealDiscountTable d = "-" ++ Nat.repr q ++ "%") ∧
    (d.badges.discount_percentage = none → d.tags.discount_percentage = none →
      dealDiscount d = none ∧ dealDiscountCompact d = 0 ∧ dealDiscountTable d = "") := by
  refine ⟨?_, ?_, ?_⟩
  · intro p hp
    refine ⟨?_, ?_, ?_⟩ <;>
      simp [dealDiscount, dealDiscountCompact, dealDiscountTable, hp, Option.or]
  · intro hb q hq
    refine ⟨?_, ?_, ?_⟩ <;>
      simp [dealDiscount, dealDiscountCompact, dealDiscountTable, hb, hq, Option.or]
  · intro hb ht
    refine ⟨?_, ?_, ?_⟩ <;>
      simp [dealDiscount, dealDiscountCompact, dealDiscountTable, hb, ht, Option.or]

theorem c9_deal_discount_resolution_witness :
    dealDiscount c9Deal = some 15 ∧ dealDiscountCompact c9Deal = 15 ∧
    dealDiscountTable c9Deal = "-" ++ Nat.repr 15 ++ "%" :=
  (c9_deal_discount_resolution c9Deal).2.1 rfl 15 rfl

/-- Counterexample to C10 as stated: with byte index max-1 falling inside a
multi-byte UTF-8 character (here the two-byte e-acute), the byte slice
panics instead of returning a truncated string (none models the panic). -/
theorem c10_counterexample_multibyte :
    truncate [195, 169, 195, 169] 2 = none := by decide

/-- C10 (amended): truncate returns s unchanged when s is at most max bytes;
when s is longer and max is at least 1 with byte index max-1 on a character
boundary it returns the first max-1 bytes followed by the three-byte
ellipsis (exactly max characters when the kept bytes are ASCII); but when
max = 0, or when max-1 falls inside a multi-byte character, the function
panics (modelled as none) instead of evaluating totally. -/
theorem c10_truncate_requires_boundary (s : List Nat) (mx : Nat) :
    (s.length ≤ mx → truncate s mx = some s) ∧
    (mx = 0 → 0 < s.length → truncate s mx = none) ∧
    (∀ m, mx = m + 1 → mx < s.length → isCharBoundary s m = true →
      truncate s mx = some (s.take m ++ ellipsisBytes) ∧
      ((s.take m).all (fun b => decide (b < 128)) = true →
        utf8CharCount (s.take m ++ ellipsisBytes) = mx)) ∧
    (∀ m, mx = m + 1 → mx < s.length → isCharBoundary s m = false →
      truncate s mx = none) := by
  refine ⟨?_, ?_, ?_, ?_⟩
  · intro h
    simp [truncate, h]
  · intro h0 hlen
    subst h0
    unfold truncate
    rw [if_neg (by omega)]
  · intro m hm hlt hb
    subst hm
    constructor
    · unfold truncate
      rw [if_neg (by omega)]
      simp [hb]
    · intro hall
      unfold utf8CharCount
      rw [List.filter_append]
      have h1 : (s.take m).filter (fun b => !(128 ≤ b ∧ b < 192 : Bool)) = s.take m := by
        apply List.filter_eq_self.mpr
        intro b hb'
        have hlt128 : b < 128 := by
          have := List.all_eq_true.mp hall b hb'
          simpa using this
        simp
        omega
      rw [h1]
      have h2 : ellipsisBytes.filter (fun b => !(128 ≤ b ∧ b < 192 : Bool)) = [226] := by
        decide
      rw [h2]
      simp [List.length_take]
      omega
  · intro m hm hlt hb
    subst hm
    unfold truncate
    rw [if_neg (by omega)]
    simp [hb]

theorem c10_truncate_requires_boundary_witness :
    truncate [104, 101, 108, 108, 111] 3
      = some (([104, 101, 108, 108, 111] : List Nat).take 2 ++ ellipsisBytes) ∧
    utf8CharCount (([104, 101, 108, 108, 111] : List Nat).take 2 ++ ellipsisBytes) = 3 :=
  ⟨((c10_truncate_requires_boundary [104, 101, 108, 108, 111] 3).2.2.1 2 rfl (by decide)
      (by decide)).1,
   ((c10_truncate_requires_boundary [104, 101, 108, 108, 111] 3).2.2.1 2 rfl (by decide)
      (by decide)).2 (by decide)⟩

end KK
